import Mathlib

/-!
Verification of the p2p message relay server (`src/p2p/server.py`).

The server keeps two pieces of shared state:
  * `clients`  : a dict mapping a client id to `{"socket": s, "last_seen": t}`;
  * `offline_messages` : a dict mapping a client id to the FIFO list of
    messages stored while that client was offline (the in-memory backend,
    the authority when Redis is unavailable).

We embed one iteration of the `handle_client` read loop as a step function
on this state, the `finally` cleanup as `closeSession`, and one pass of the
`heartbeat_checker` loop body as `heartbeat_sweep`.  Python `None` values
are modelled by `Option.none`: `message.get` returns `None` for a missing
field, and a registry or offline key may itself be Python `None` (a register
frame whose `sender` field is absent registers the key `None`), so both maps
are keyed by `Option String`.  Timestamps are naturals (`time.time()` is
monotone across the events of a run, so natural-number truncated subtraction
agrees with the float subtraction the code performs).  Socket handles are
naturals; the outcome of `socket.send` is an oracle `sendOk` supplied by the
environment, and every attempted send is recorded as an event.
-/

namespace P2P

/-- `HEARTBEAT_TIMEOUT = 15` from server.py. -/
def HEARTBEAT_TIMEOUT : Nat := 15

/-- The JSON object carried by a `"message"` frame: `sender`, `recipient`,
`payload`, `timestamp`, each `None` when the field is absent
(`message.get(...)`).  The whole object is what is sent on a live delivery
and what is stored in the offline queue. -/
structure Msg where
  sender : Option String
  recipient : Option String
  payload : Option String
  timestamp : Option String
deriving DecidableEq, Repr

/-- One registry value: `{"socket": sock, "last_seen": last_seen}`. -/
structure ConnInfo where
  sock : Nat
  last_seen : Nat
deriving DecidableEq, Repr

/-- Python-dict lookup on an association list (`d[k]` / `k in d`). -/
def alookup {K V : Type} [DecidableEq K] (k : K) : List (K × V) → Option V
  | [] => none
  | p :: ps => if p.1 = k then some p.2 else alookup k ps

/-- Python-dict assignment `d[k] = v`: replaces the entry in place if the
key is present (Python dicts keep the original position on update),
otherwise appends a new entry at the end. -/
def aset {K V : Type} [DecidableEq K] (k : K) (v : V) : List (K × V) → List (K × V)
  | [] => [(k, v)]
  | p :: ps => if p.1 = k then (k, v) :: ps else p :: aset k v ps

/-- Python-dict deletion `d.pop(k, ...)` / `del d[k]`: drops every entry
with key `k` (on the duplicate-free lists the dict semantics produce this
is exactly deleting the one entry). -/
def aerase {K V : Type} [DecidableEq K] (k : K) : List (K × V) → List (K × V)
  | [] => []
  | p :: ps => if p.1 = k then aerase k ps else p :: aerase k ps

/-- `offline_messages.setdefault(recipient, []).append(message)`. -/
def apush (k : Option String) (m : Msg) :
    List (Option String × List Msg) → List (Option String × List Msg)
  | [] => [(k, [m])]
  | p :: ps => if p.1 = k then (p.1, p.2 ++ [m]) :: ps else p :: apush k m ps

/-- `clients[k]["last_seen"] = now`: in-place update of the `last_seen`
field of the entry for `k`, leaving the socket untouched; no-op when `k`
is absent. -/
def atouch (k : Option String) (now : Nat) :
    List (Option String × ConnInfo) → List (Option String × ConnInfo)
  | [] => []
  | p :: ps => if p.1 = k then (p.1, { p.2 with last_seen := now }) :: ps else p :: atouch k now ps

/-- The server's shared mutable state: the connection registry `clients`
and the in-memory offline store `offline_messages`. -/
structure ServerState where
  clients : List (Option String × ConnInfo)
  offline : List (Option String × List Msg)
deriving DecidableEq, Repr

/-- `store_offline_message(recipient, message)` (in-memory backend). -/
def store_offline_message (recipient : Option String) (message : Msg)
    (st : ServerState) : ServerState :=
  { st with offline := apush recipient message st.offline }

/-- `retrieve_offline_messages(client_id)` (in-memory backend):
`offline_messages.pop(client_id, [])` returns the queued list and removes
the key. -/
def retrieve_offline_messages (client_id : Option String) (st : ServerState) :
    List Msg × ServerState :=
  ((alookup client_id st.offline).getD [], { st with offline := aerase client_id st.offline })

/-- One chunk that survived the bytes-level `recv(1024).decode()` call, as
`handle_client` dispatches on it: `invalid` is decoded text that
`json.loads` rejects (`JSONDecodeError`, caught by the inner handler);
otherwise the decoded object is dispatched on `message.get("action")` into
`register`, `heartbeat`, `deliver` (action `"message"`, carrying the full
object) or `unknown` (any other action value, including a missing one).
A chunk whose raw bytes `.decode()` itself rejects never reaches this
dispatch; it is the global event `Op.recvRaw` below. -/
inductive Frame where
  | invalid
  | register (sender : Option String)
  | heartbeat (sender : Option String)
  | deliver (m : Msg)
  | unknown (action : Option String)

/-- An observable transport effect: one `socket.send` call on socket
`sock` carrying `m`, with `ok = false` when the call raised. -/
inductive Ev where
  | send (sock : Nat) (m : Msg) (ok : Bool)
deriving DecidableEq, Repr

/-- One iteration of the `handle_client` read loop, for the session on
socket `sock` whose local `client_id` variable currently holds
`client_id`.  Returns the new `client_id`, the new shared state, and the
list of `socket.send` calls attempted, in order.  `sendOk` tells whether a
given send raises; a raised send inside the loop is caught
(`except Exception`) and never escapes the iteration. -/
def handleFrame (now : Nat) (sendOk : Nat → Msg → Bool) (sock : Nat)
    (client_id : Option String) (st : ServerState) :
    Frame → Option String × ServerState × List Ev
  | .invalid => (client_id, st, [])
  | .register s =>
    let st1 : ServerState := { st with clients := aset s ⟨sock, now⟩ st.clients }
    let r := retrieve_offline_messages s st1
    (s, r.2, r.1.map (fun m => Ev.send sock m (sendOk sock m)))
  | .heartbeat _ =>
    if (alookup client_id st.clients).isSome then
      (client_id, { st with clients := atouch client_id now st.clients }, [])
    else
      (client_id, st, [])
  | .deliver m =>
    match alookup m.recipient st.clients with
    | some info =>
      if now - info.last_seen ≤ HEARTBEAT_TIMEOUT then
        if sendOk info.sock m then
          (client_id, st, [Ev.send info.sock m true])
        else
          (client_id, store_offline_message m.recipient m st, [Ev.send info.sock m false])
      else
        (client_id, store_offline_message m.recipient m st, [])
    | none => (client_id, store_offline_message m.recipient m st, [])
  | .unknown _ => (client_id, st, [])

/-- Python truthiness of the session's `client_id` (`if client_id:`):
`None` and the empty string are falsy. -/
def pyTruthy : Option String → Bool
  | none => false
  | some s => decide (s ≠ "")

/-- The `finally` block of `handle_client`: when the session's `client_id`
is truthy and still a registry key, the entry is deleted — unconditionally,
with no check that it still points at this session's socket. -/
def closeSession (client_id : Option String) (st : ServerState) : ServerState :=
  if pyTruthy client_id then { st with clients := aerase client_id st.clients } else st

/-- The removal loop of `heartbeat_checker`: for each collected stale key,
close its socket (collecting the closed handles, in order) and delete the
entry. -/
def sweepRemove (clients : List (Option String × ConnInfo)) :
    List (Option String) → List (Option String × ConnInfo) × List Nat
  | [] => (clients, [])
  | k :: ks =>
    match alookup k clients with
    | some info =>
      let r := sweepRemove (aerase k clients) ks
      (r.1, info.sock :: r.2)
    | none => sweepRemove (aerase k clients) ks

/-- One pass of the `heartbeat_checker` loop body at time `now`: collect
every key whose entry has `now - last_seen > HEARTBEAT_TIMEOUT` into
`to_remove`, then close and delete each.  Returns the new state and the
sockets closed. -/
def heartbeat_sweep (now : Nat) (st : ServerState) : ServerState × List Nat :=
  let to_remove :=
    (st.clients.filter (fun p => decide (now - p.2.last_seen > HEARTBEAT_TIMEOUT))).map Prod.fst
  let r := sweepRemove st.clients to_remove
  ({ st with clients := r.1 }, r.2)

/-- One per-connection session: its socket and its current `client_id`
local variable (`none` until the first register frame). -/
structure Session where
  sock : Nat
  cid : Option String
deriving DecidableEq, Repr

/-- A whole-server configuration: the shared state, the live session
threads (keyed by an abstract session id), the multiset of closed socket
handles, and the current time. -/
structure GState where
  server : ServerState
  sessions : List (Nat × Session)
  closed : List Nat
  now : Nat

/-- An atomic global event: time advance, `accept` spawning a session,
a session receiving one chunk that `.decode()` accepts (`recv`), a session
receiving a chunk whose raw bytes `.decode()` rejects (`recvRaw`: the
`UnicodeDecodeError` raised at `client_socket.recv(1024).decode()` is not a
`json.JSONDecodeError`, so it escapes the inner handler to the outer
`except` and the session ends through the `finally` block), a session's
read loop ending by EOF or read error (`close`, also running the `finally`
block and closing the socket), or one `heartbeat_checker` pass. -/
inductive Op where
  | tick (t : Nat)
  | accept (sid : Nat) (sock : Nat)
  | recv (sid : Nat) (f : Frame) (sendOk : Nat → Msg → Bool)
  | recvRaw (sid : Nat)
  | close (sid : Nat)
  | sweepNow

/-- Global small-step interpreter. -/
def gstep (g : GState) : Op → GState
  | .tick t => { g with now := max g.now t }
  | .accept sid sock => { g with sessions := aset sid ⟨sock, none⟩ g.sessions }
  | .recv sid f sendOk =>
    match alookup sid g.sessions with
    | none => g
    | some s =>
      let r := handleFrame g.now sendOk s.sock s.cid g.server f
      { g with server := r.2.1, sessions := aset sid ⟨s.sock, r.1⟩ g.sessions }
  | .recvRaw sid =>
    match alookup sid g.sessions with
    | none => g
    | some s =>
      { g with server := closeSession s.cid g.server,
               sessions := aerase sid g.sessions,
               closed := g.closed ++ [s.sock] }
  | .close sid =>
    match alookup sid g.sessions with
    | none => g
    | some s =>
      { g with server := closeSession s.cid g.server,
               sessions := aerase sid g.sessions,
               closed := g.closed ++ [s.sock] }
  | .sweepNow =>
    let r := heartbeat_sweep g.now g.server
    { g with server := r.1, closed := g.closed ++ r.2 }

/-- The empty initial configuration at time 0. -/
def initG : GState := ⟨⟨[], []⟩, [], [], 0⟩

/-- Execute a run of global events from the initial configuration. -/
def runOps (ops : List Op) : GState := ops.foldl gstep initG

/-! ### Association-list lemmas (Python dict semantics) -/

theorem alookup_aerase {K V : Type} [DecidableEq K] (k j : K) (l : List (K × V)) :
    alookup k (aerase j l) = if k = j then none else alookup k l := by
  induction l with
  | nil => by_cases h : k = j <;> simp [alookup, aerase, h]
  | cons p ps ih =>
    by_cases hkj : k = j
    · subst hkj
      by_cases hpk : p.1 = k
      · simpa [aerase, hpk] using ih
      · simpa [aerase, alookup, hpk] using ih
    · by_cases hpj : p.1 = j
      · have hpk : p.1 ≠ k := by rw [hpj]; exact fun h => hkj h.symm
        have hjk : j ≠ k := fun h => hkj h.symm
        simp [aerase, alookup, hpj, hpk, ih, hkj, hjk]
      · by_cases hpk : p.1 = k <;> simp [aerase, alookup, hpj, hpk, ih, hkj]

theorem alookup_aerase_self {K V : Type} [DecidableEq K] (k : K) (l : List (K × V)) :
    alookup k (aerase k l) = none := by
  simp [alookup_aerase]

theorem alookup_aerase_none {K V : Type} [DecidableEq K] {k : K} (j : K) {l : List (K × V)}
    (h : alookup k l = none) : alookup k (aerase j l) = none := by
  rw [alookup_aerase]; split <;> simp [h]

theorem mem_aerase {K V : Type} [DecidableEq K] {p : K × V} (j : K) (l : List (K × V)) :
    p ∈ aerase j l ↔ p ∈ l ∧ p.1 ≠ j := by
  induction l with
  | nil => simp [aerase]
  | cons q qs ih =>
    by_cases hqj : q.1 = j
    · constructor
      · intro hp
        have := (ih.mp (by simpa [aerase, hqj] using hp))
        exact ⟨List.mem_cons_of_mem _ this.1, this.2⟩
      · rintro ⟨hp, hpj⟩
        rcases List.mem_cons.mp hp with h | h
        · exact absurd (h ▸ hqj) hpj
        · simpa [aerase, hqj] using ih.mpr ⟨h, hpj⟩
    · constructor
      · intro hp
        rcases List.mem_cons.mp (by simpa [aerase, hqj] using hp) with h | h
        · exact ⟨by simp [h], by simpa [h] using hqj⟩
        · have := ih.mp h
          exact ⟨List.mem_cons_of_mem _ this.1, this.2⟩
      · rintro ⟨hp, hpj⟩
        rcases List.mem_cons.mp hp with h | h
        · subst h; simp [aerase, hqj]
        · simp [aerase, hqj, List.mem_cons, ih.mpr ⟨h, hpj⟩]

theorem alookup_mem {K V : Type} [DecidableEq K] {k : K} {v : V} {l : List (K × V)}
    (h : alookup k l = some v) : (k, v) ∈ l := by
  induction l with
  | nil => simp [alookup] at h
  | cons p ps ih =>
    by_cases hpk : p.1 = k
    · simp only [alookup, if_pos hpk] at h
      obtain ⟨pk, pv⟩ := p
      obtain rfl : pk = k := hpk
      obtain rfl : pv = v := by simpa using h
      exact List.mem_cons_self _ _
    · simp only [alookup, if_neg hpk] at h
      exact List.mem_cons_of_mem _ (ih h)

theorem alookup_aset_self {K V : Type} [DecidableEq K] (k : K) (v : V) (l : List (K × V)) :
    alookup k (aset k v l) = some v := by
  induction l with
  | nil => simp [aset, alookup]
  | cons p ps ih => by_cases hpk : p.1 = k <;> simp [aset, alookup, hpk, ih]

theorem aset_self {K V : Type} [DecidableEq K] {k : K} {v : V} {l : List (K × V)}
    (h : alookup k l = some v) : aset k v l = l := by
  induction l with
  | nil => simp [alookup] at h
  | cons p ps ih =>
    by_cases hpk : p.1 = k
    · simp only [alookup, if_pos hpk] at h
      obtain ⟨pk, pv⟩ := p
      obtain rfl : pk = k := hpk
      obtain rfl : pv = v := by simpa using h
      simp [aset]
    · simp only [alookup, if_neg hpk] at h
      simp [aset, hpk, ih h]

theorem alookup_apush (k : Option String) (m : Msg) (l : List (Option String × List Msg)) :
    alookup k (apush k m l) = some ((alookup k l).getD [] ++ [m]) := by
  induction l with
  | nil => simp [apush, alookup]
  | cons p ps ih => by_cases hpk : p.1 = k <;> simp [apush, alookup, hpk, ih]

theorem atouch_of_absent (k : Option String) (now : Nat)
    {l : List (Option String × ConnInfo)} (h : alookup k l = none) :
    atouch k now l = l := by
  induction l with
  | nil => simp [atouch]
  | cons p ps ih =>
    by_cases hpk : p.1 = k
    · simp [alookup, hpk] at h
    · simp only [alookup, if_neg hpk] at h
      simp [atouch, hpk, ih h]

/-! ### Lemmas about the heartbeat sweep -/

theorem sweepRemove_fst_none {k : Option String} (ks : List (Option String))
    {l : List (Option String × ConnInfo)} (h : alookup k l = none) :
    alookup k (sweepRemove l ks).1 = none := by
  induction ks generalizing l with
  | nil => simpa [sweepRemove] using h
  | cons j ks ih =>
    cases hj : alookup j l with
    | some info => simpa [sweepRemove, hj] using ih (alookup_aerase_none j h)
    | none => simpa [sweepRemove, hj] using ih (alookup_aerase_none j h)

theorem sweepRemove_fst_none_of_mem {k : Option String} {ks : List (Option String)}
    (hk : k ∈ ks) (l : List (Option String × ConnInfo)) :
    alookup k (sweepRemove l ks).1 = none := by
  induction ks generalizing l with
  | nil => simp at hk
  | cons j ks ih =>
    by_cases hkj : k = j
    · subst hkj
      have herased : alookup k (aerase k l) = none := alookup_aerase_self k l
      cases hj : alookup k l with
      | some info => simpa [sweepRemove, hj] using sweepRemove_fst_none ks herased
      | none => simpa [sweepRemove, hj] using sweepRemove_fst_none ks herased
    · have hk' : k ∈ ks := by
        rcases List.mem_cons.mp hk with h | h
        · exact absurd h hkj
        · exact h
      cases hj : alookup j l with
      | some info => simpa [sweepRemove, hj] using ih hk' (aerase j l)
      | none => simpa [sweepRemove, hj] using ih hk' (aerase j l)

theorem sweepRemove_sock_mem {k : Option String} {ks : List (Option String)}
    {info : ConnInfo} (hk : k ∈ ks) {l : List (Option String × ConnInfo)}
    (hl : alookup k l = some info) : info.sock ∈ (sweepRemove l ks).2 := by
  induction ks generalizing l with
  | nil => simp at hk
  | cons j ks ih =>
    by_cases hkj : k = j
    · subst hkj
      simp [sweepRemove, hl]
    · have hk' : k ∈ ks := by
        rcases List.mem_cons.mp hk with h | h
        · exact absurd h hkj
        · exact h
      have hl' : alookup k (aerase j l) = some info := by
        rw [alookup_aerase]; simp [hkj, hl]
      cases hj : alookup j l with
      | some infoj =>
        simpa [sweepRemove, hj] using List.mem_cons_of_mem infoj.sock (ih hk' hl')
      | none => simpa [sweepRemove, hj] using ih hk' hl'

theorem sweepRemove_mem_fst {p : Option String × ConnInfo} {ks : List (Option String)}
    {l : List (Option String × ConnInfo)} (hp : p ∈ (sweepRemove l ks).1) :
    p ∈ l ∧ p.1 ∉ ks := by
  induction ks generalizing l with
  | nil => simpa [sweepRemove] using hp
  | cons j ks ih =>
    have step : p ∈ (sweepRemove (aerase j l) ks).1 := by
      cases hj : alookup j l with
      | some info => simpa [sweepRemove, hj] using hp
      | none => simpa [sweepRemove, hj] using hp
    obtain ⟨hmem, hnot⟩ := ih step
    have := (mem_aerase j l).mp hmem
    exact ⟨this.1, by simp [List.mem_cons, this.2, hnot]⟩

/-! ### Concrete fixtures used by witnesses and counterexamples -/

/-- A transport oracle on which every send succeeds. -/
def okTrue : Nat → Msg → Bool := fun _ _ => true

/-- A transport oracle on which every send raises. -/
def okFail : Nat → Msg → Bool := fun _ _ => false

/-- The message `{"action": "message", "sender": "A", "recipient": "B",
"payload": "hi", "timestamp": "0"}`. -/
def msgHi : Msg := ⟨some "A", some "B", some "hi", some "0"⟩

/-- A state where `B` is registered on socket 2 with `last_seen = 0`. -/
def stLiveB : ServerState := ⟨[(some "B", ⟨2, 0⟩)], []⟩

/-- A state with an empty registry and one message queued for `B`. -/
def stQueuedB : ServerState := ⟨[], [(some "B", [msgHi])]⟩

/-! ### C1 — live delivery -/

/-- C1: a Deliver frame whose recipient has a registry entry with
`now - last_seen ≤ HEARTBEAT_TIMEOUT` is sent on that recipient's live
socket, and when that send succeeds the shared state is untouched — in
particular nothing is added to the recipient's offline queue. -/
theorem deliver_live_forwards (now : Nat) (sendOk : Nat → Msg → Bool) (sock : Nat)
    (cid : Option String) (st : ServerState) (m : Msg) (info : ConnInfo)
    (hreg : alookup m.recipient st.clients = some info)
    (hfresh : now - info.last_seen ≤ HEARTBEAT_TIMEOUT) :
    (handleFrame now sendOk sock cid st (.deliver m)).2.2 =
      [Ev.send info.sock m (sendOk info.sock m)] ∧
    (sendOk info.sock m = true →
      handleFrame now sendOk sock cid st (.deliver m) =
        (cid, st, [Ev.send info.sock m true])) := by
  constructor
  · cases hok : sendOk info.sock m <;> simp [handleFrame, hreg, hfresh, hok]
  · intro hok
    simp [handleFrame, hreg, hfresh, hok]

/-- Witness for C1: with `B` live on socket 2 and a healthy transport, the
"hi" message is sent to socket 2 and the state is unchanged. -/
theorem deliver_live_forwards_witness :
    (handleFrame 5 okTrue 1 (some "A") stLiveB (.deliver msgHi)).2.2 =
      [Ev.send 2 msgHi true] ∧
    handleFrame 5 okTrue 1 (some "A") stLiveB (.deliver msgHi) =
      (some "A", stLiveB, [Ev.send 2 msgHi true]) := by
  have h := deliver_live_forwards 5 okTrue 1 (some "A") stLiveB msgHi ⟨2, 0⟩
    (by decide) (by decide)
  exact ⟨h.1, h.2 rfl⟩

/-! ### C2 — offline or stale recipient -/

/-- C2: a Deliver frame whose recipient is absent from the registry, or
present but with `now - last_seen > HEARTBEAT_TIMEOUT`, is appended to the
recipient's offline queue and no send is attempted. -/
theorem deliver_offline_queues (now : Nat) (sendOk : Nat → Msg → Bool) (sock : Nat)
    (cid : Option String) (st : ServerState) (m : Msg)
    (h : alookup m.recipient st.clients = none ∨
      ∃ info, alookup m.recipient st.clients = some info ∧
        HEARTBEAT_TIMEOUT < now - info.last_seen) :
    handleFrame now sendOk sock cid st (.deliver m) =
      (cid, store_offline_message m.recipient m st, []) ∧
    alookup m.recipient (store_offline_message m.recipient m st).offline =
      some ((alookup m.recipient st.offline).getD [] ++ [m]) := by
  refine ⟨?_, by simp [store_offline_message, alookup_apush]⟩
  rcases h with h | ⟨info, h, hstale⟩
  · simp [handleFrame, h]
  · have hle : ¬ (now - info.last_seen ≤ HEARTBEAT_TIMEOUT) := not_le.mpr hstale
    simp [handleFrame, h, hle]

/-- Witness for C2: with an empty registry, the "hi" message for `B` is
queued (creating `B`'s queue) and no send happens. -/
theorem deliver_offline_queues_witness :
    handleFrame 5 okTrue 1 (some "A") (⟨[], []⟩ : ServerState) (.deliver msgHi) =
      (some "A", store_offline_message (some "B") msgHi ⟨[], []⟩, []) ∧
    alookup (some "B") (store_offline_message (some "B") msgHi ⟨[], []⟩).offline =
      some [msgHi] := by
  have h := deliver_offline_queues 5 okTrue 1 (some "A") ⟨[], []⟩ msgHi
    (Or.inl (by decide))
  exact ⟨h.1, by simpa using h.2⟩

/-! ### C3 — failed live send

The claim says a failed live send enqueues the message offline AND removes
the recipient's registry entry.  The code's `except` branch only calls
`store_offline_message`; it never deletes `clients[recipient]`, so the
entry survives. -/

/-- Counterexample for C3: `B` is live on socket 2, the transport raises on
every send; the message is queued offline but `B`'s registry entry is still
present afterwards, contradicting the claimed removal. -/
theorem deliver_send_failure_cex :
    alookup (some "B") stLiveB.clients = some ⟨2, 0⟩ ∧
    (5 : Nat) - (0 : Nat) ≤ HEARTBEAT_TIMEOUT ∧
    okFail 2 msgHi = false ∧
    (handleFrame 5 okFail 1 (some "A") stLiveB (.deliver msgHi)).2.1.offline =
      [(some "B", [msgHi])] ∧
    alookup (some "B")
      (handleFrame 5 okFail 1 (some "A") stLiveB (.deliver msgHi)).2.1.clients =
      some ⟨2, 0⟩ := by
  decide

/-- C3 amended: when the live send to a fresh recipient raises, the message
is enqueued in the recipient's offline queue and the error is not
propagated (the session's `client_id` is unchanged and the iteration
returns normally), but the recipient's registry entry is left in place, not
removed. -/
theorem deliver_send_failure (now : Nat) (sendOk : Nat → Msg → Bool) (sock : Nat)
    (cid : Option String) (st : ServerState) (m : Msg) (info : ConnInfo)
    (hreg : alookup m.recipient st.clients = some info)
    (hfresh : now - info.last_seen ≤ HEARTBEAT_TIMEOUT)
    (hfail : sendOk info.sock m = false) :
    handleFrame now sendOk sock cid st (.deliver m) =
      (cid, store_offline_message m.recipient m st, [Ev.send info.sock m false]) ∧
    (handleFrame now sendOk sock cid st (.deliver m)).2.1.clients = st.clients := by
  refine ⟨by simp [handleFrame, hreg, hfresh, hfail], ?_⟩
  simp [handleFrame, hreg, hfresh, hfail, store_offline_message]

/-- Witness for the amended C3 at the counterexample input. -/
theorem deliver_send_failure_witness :
    handleFrame 5 okFail 1 (some "A") stLiveB (.deliver msgHi) =
      (some "A", store_offline_message (some "B") msgHi stLiveB,
        [Ev.send 2 msgHi false]) ∧
    (handleFrame 5 okFail 1 (some "A") stLiveB (.deliver msgHi)).2.1.clients =
      stLiveB.clients := by
  have h := deliver_send_failure 5 okFail 1 (some "A") stLiveB msgHi ⟨2, 0⟩
    (by decide) (by decide) rfl
  exact h

/-! ### C4 — register drains the offline queue in order -/

/-- C4: a Register frame for `s` installs the new connection, replays the
whole offline queue of `s` to the session's own socket as one `send` call
per queued message, in FIFO order, and afterwards the offline store has no
entry for `s`. -/
theorem register_drains_fifo (now : Nat) (sendOk : Nat → Msg → Bool) (sock : Nat)
    (cid : Option String) (st : ServerState) (s : Option String) :
    handleFrame now sendOk sock cid st (.register s) =
      (s, ⟨aset s ⟨sock, now⟩ st.clients, aerase s st.offline⟩,
        ((alookup s st.offline).getD []).map (fun m => Ev.send sock m (sendOk sock m))) ∧
    alookup s (handleFrame now sendOk sock cid st (.register s)).2.1.offline = none := by
  refine ⟨rfl, ?_⟩
  simp [handleFrame, retrieve_offline_messages, alookup_aerase_self]

/-! ### C5 — the registry-freshness invariant

The claim asserts that in every reachable state each registered identifier
is within the heartbeat window.  The code only evicts stale entries when
`heartbeat_checker` runs; between sweeps an entry can be arbitrarily stale
while still registered. -/

/-- The run: a session on socket 10 registers `A` at time 0, then time
advances to 20 with no sweep. -/
def run5 : List Op := [.accept 1 10, .recv 1 (.register (some "A")) okTrue, .tick 20]

/-- Counterexample for C5: after `run5`, `A` is still registered although
`now - last_seen = 20 > HEARTBEAT_TIMEOUT`, so the claimed invariant fails
in a reachable state. -/
theorem registry_freshness_cex :
    ¬ (∀ ops : List Op, ∀ p ∈ (runOps ops).server.clients,
        (runOps ops).now - p.2.last_seen ≤ HEARTBEAT_TIMEOUT ∧
        p.2.sock ∉ (runOps ops).closed) := by
  intro h
  have hmem : ((some "A"), (⟨10, 0⟩ : ConnInfo)) ∈ (runOps run5).server.clients := by
    decide
  have hfresh := (h run5 _ hmem).1
  revert hfresh
  decide

/-- C5 amended: entries may exceed the heartbeat window between sweeps, but
immediately after a `heartbeat_checker` pass at time `now`, every entry
still registered satisfies `now - last_seen ≤ HEARTBEAT_TIMEOUT`. -/
theorem sweep_leaves_only_fresh (now : Nat) (st : ServerState) :
    ∀ p ∈ (heartbeat_sweep now st).1.clients,
      now - p.2.last_seen ≤ HEARTBEAT_TIMEOUT := by
  intro p hp
  obtain ⟨hmem, hnot⟩ := sweepRemove_mem_fst hp
  by_contra hstale
  apply hnot
  exact List.mem_map_of_mem Prod.fst
    (List.mem_filter.mpr ⟨hmem, by simpa using not_le.mp hstale⟩)

/-- A registry with one fresh entry (`A`) and one stale entry (`C`) at
time 20. -/
def stMixed : ServerState := ⟨[(some "A", ⟨1, 10⟩), (some "C", ⟨3, 0⟩)], []⟩

/-- Witness for the amended C5: `A` survives the sweep of `stMixed` at
time 20 and is indeed within the window. -/
theorem sweep_leaves_only_fresh_witness :
    (20 : Nat) - (10 : Nat) ≤ HEARTBEAT_TIMEOUT :=
  sweep_leaves_only_fresh 20 stMixed ((some "A"), ⟨1, 10⟩) (by decide)

/-! ### C6 — the sweep evicts every stale entry and closes its socket -/

/-- C6: every registry entry that the sweep examines with
`now - last_seen > HEARTBEAT_TIMEOUT` is removed by that sweep, and its
socket is among the handles the sweep closes. -/
theorem heartbeat_sweep_evicts (now : Nat) (st : ServerState)
    (k : Option String) (info : ConnInfo)
    (hreg : alookup k st.clients = some info)
    (hstale : HEARTBEAT_TIMEOUT < now - info.last_seen) :
    alookup k (heartbeat_sweep now st).1.clients = none ∧
    info.sock ∈ (heartbeat_sweep now st).2 := by
  have hmem : (k, info) ∈ st.clients := alookup_mem hreg
  have hfilter : (k, info) ∈
      st.clients.filter (fun p => decide (now - p.2.last_seen > HEARTBEAT_TIMEOUT)) :=
    List.mem_filter.mpr ⟨hmem, by simpa using hstale⟩
  have hk : k ∈ (st.clients.filter
      (fun p => decide (now - p.2.last_seen > HEARTBEAT_TIMEOUT))).map Prod.fst :=
    List.mem_map_of_mem Prod.fst hfilter
  exact ⟨sweepRemove_fst_none_of_mem hk st.clients, sweepRemove_sock_mem hk hreg⟩

/-- A registry whose only entry (`C`, socket 3) is stale at time 20. -/
def stStale : ServerState := ⟨[(some "C", ⟨3, 0⟩)], []⟩

/-- Witness for C6: sweeping `stStale` at time 20 deregisters `C` and
closes socket 3. -/
theorem heartbeat_sweep_evicts_witness :
    alookup (some "C") (heartbeat_sweep 20 stStale).1.clients = none ∧
    3 ∈ (heartbeat_sweep 20 stStale).2 :=
  heartbeat_sweep_evicts 20 stStale (some "C") ⟨3, 0⟩ (by decide) (by decide)

/-! ### C7 — cleanup on session close

The claim says the `finally` cleanup removes the registry entry only when
it still points at this session's connection.  The code runs
`del clients[client_id]` whenever the key is present, without comparing
sockets, so it also tears down an entry installed by a newer connection. -/

/-- A registry where `A` points at socket 2 (a newer connection). -/
def st7 : ServerState := ⟨[(some "A", ⟨2, 5⟩)], []⟩

/-- A configuration where session 1 (socket 1) had registered `A`, but the
registry entry for `A` now points at socket 2. -/
def g7 : GState := ⟨st7, [(1, ⟨1, some "A"⟩)], [], 6⟩

/-- Counterexample for C7: session 1's socket is 1 while `A`'s entry points
at socket 2, yet closing session 1 still deletes the entry — the claimed
points-at-this-connection guard does not exist. -/
theorem close_removes_newer_entry_cex :
    alookup 1 g7.sessions = some ⟨1, some "A"⟩ ∧
    alookup (some "A") g7.server.clients = some ⟨2, 5⟩ ∧
    (2 : Nat) ≠ (1 : Nat) ∧
    alookup (some "A") (gstep g7 (.close 1)).server.clients = none := by
  decide

/-- C7 amended: on close, when the session's `client_id` is truthy its
registry entry is removed unconditionally — regardless of which connection
the entry points at — while every other registry entry and the offline
store are unchanged; a falsy `client_id` (never registered, or registered
under `None` or the empty string) leaves the state untouched. -/
theorem close_cleanup (cid : Option String) (st : ServerState) :
    (closeSession cid st).offline = st.offline ∧
    (∀ k, k ≠ cid → alookup k (closeSession cid st).clients = alookup k st.clients) ∧
    (pyTruthy cid = true → (closeSession cid st).clients = aerase cid st.clients) ∧
    (pyTruthy cid = false → closeSession cid st = st) := by
  cases h : pyTruthy cid with
  | true =>
    refine ⟨by simp [closeSession, h], ?_, fun _ => by simp [closeSession, h],
      fun hf => by simp [h] at hf⟩
    intro k hk
    simp [closeSession, h, alookup_aerase, hk]
  | false =>
    exact ⟨by simp [closeSession, h], fun k _ => by simp [closeSession, h],
      fun ht => by simp [h] at ht, fun _ => by simp [closeSession, h]⟩

/-- Witness for the amended C7 at the counterexample state. -/
theorem close_cleanup_witness :
    (closeSession (some "A") st7).offline = st7.offline ∧
    alookup (some "Z") (closeSession (some "A") st7).clients =
      alookup (some "Z") st7.clients ∧
    (closeSession (some "A") st7).clients = aerase (some "A") st7.clients := by
  have h := close_cleanup (some "A") st7
  exact ⟨h.1, h.2.1 (some "Z") (by decide), h.2.2.1 (by decide)⟩

/-! ### C8 — re-registration is last-writer-wins -/

/-- C8: a Register frame for `s` processed on a session whose socket
differs from the one in `s`'s existing registry entry replaces the entry
with the new socket and a fresh `last_seen = now`, and closes nothing. -/
theorem register_last_writer_wins (g : GState) (sid : Nat) (sess : Session)
    (s : Option String) (info : ConnInfo) (sendOk : Nat → Msg → Bool)
    (hs : alookup sid g.sessions = some sess)
    (hold : alookup s g.server.clients = some info)
    (hdiff : info.sock ≠ sess.sock) :
    alookup s (gstep g (.recv sid (.register s) sendOk)).server.clients =
      some ⟨sess.sock, g.now⟩ ∧
    (gstep g (.recv sid (.register s) sendOk)).closed = g.closed := by
  refine ⟨?_, ?_⟩
  · simp only [gstep, hs]
    simp [handleFrame, retrieve_offline_messages, alookup_aset_self]
  · simp only [gstep, hs]

/-- A configuration where `A` is registered on socket 2 and an unregistered
session 1 on socket 1 is about to re-register `A` at time 7. -/
def g8 : GState := ⟨⟨[(some "A", ⟨2, 3⟩)], []⟩, [(1, ⟨1, none⟩)], [], 7⟩

/-- Witness for C8: re-registering `A` from socket 1 installs
`{socket: 1, last_seen: 7}` and closes no connection. -/
theorem register_last_writer_wins_witness :
    alookup (some "A") (gstep g8 (.recv 1 (.register (some "A")) okTrue)).server.clients =
      some ⟨1, 7⟩ ∧
    (gstep g8 (.recv 1 (.register (some "A")) okTrue)).closed = g8.closed :=
  register_last_writer_wins g8 1 ⟨1, none⟩ (some "A") ⟨2, 3⟩ okTrue
    (by decide) (by decide) (by decide)

/-! ### C9 — what a chunk that fails to decode does

The claim asserts that *every* received chunk that fails to decode is
discarded with the connection left open and all state unchanged.  That is
true of the `json.loads` stage (`JSONDecodeError` hits `continue`) and of
unrecognized actions, but not of the bytes stage: the
`client_socket.recv(1024).decode()` call sits outside the inner
`try`/`except json.JSONDecodeError`, so a chunk that is not valid UTF-8
raises `UnicodeDecodeError` straight to the outer `except Exception` — the
read loop ends, the `finally` block deletes the session's registry entry
and the socket is closed. -/

/-- The run: a session on socket 5 registers `A` at time 0, then receives a
chunk whose raw bytes fail `.decode()`. -/
def run9 : List Op := [.accept 1 5, .recv 1 (.register (some "A")) okTrue, .recvRaw 1]

/-- Counterexample for C9: before the undecodable chunk, `A` is registered
on socket 5; the chunk — a received input that fails to decode — closes the
connection (socket 5 is released), ends the session, and removes `A` from
the registry, contradicting the claimed connection-stays-open,
state-unchanged behaviour. -/
theorem undecodable_bytes_fatal_cex :
    (runOps (run9.take 2)).server.clients = [(some "A", ⟨5, 0⟩)] ∧
    alookup 1 (runOps (run9.take 2)).sessions = some ⟨5, some "A"⟩ ∧
    (runOps (run9.take 2)).closed = [] ∧
    (runOps run9).server.clients = [] ∧
    (runOps run9).closed = [5] ∧
    alookup 1 (runOps run9).sessions = none := by
  decide

/-- C9 amended: a chunk that decodes to text but fails JSON parsing, and a
decoded frame whose action is unrecognized, are discarded with the whole
configuration untouched — registry, offline store, session `client_id` and
closed sockets all unchanged, connection open; but a chunk whose raw bytes
fail UTF-8 decoding raises past the JSON handler and ends the session: its
registry entry (when its `client_id` is truthy) is deleted by the `finally`
block, the session is gone and its socket is closed. -/
theorem decode_failure_paths (g : GState) (sid : Nat) (sendOk : Nat → Msg → Bool)
    (a : Option String) :
    gstep g (.recv sid .invalid sendOk) = g ∧
    gstep g (.recv sid (.unknown a) sendOk) = g ∧
    (∀ s, alookup sid g.sessions = some s →
      gstep g (.recvRaw sid) =
        { g with server := closeSession s.cid g.server,
                 sessions := aerase sid g.sessions,
                 closed := g.closed ++ [s.sock] }) := by
  refine ⟨?_, ?_, ?_⟩
  · simp only [gstep]
    cases hs : alookup sid g.sessions with
    | none => rfl
    | some s =>
      have hset : aset sid (⟨s.sock, s.cid⟩ : Session) g.sessions = g.sessions :=
        aset_self hs
      simp [handleFrame, hset]
  · simp only [gstep]
    cases hs : alookup sid g.sessions with
    | none => rfl
    | some s =>
      have hset : aset sid (⟨s.sock, s.cid⟩ : Session) g.sessions = g.sessions :=
        aset_self hs
      simp [handleFrame, hset]
  · intro s hs
    simp only [gstep, hs]

/-- The configuration reached by the first two events of `run9`: `A`
registered on socket 5, session 1 live. -/
def g9 : GState := ⟨⟨[(some "A", ⟨5, 0⟩)], []⟩, [(1, ⟨5, some "A"⟩)], [], 0⟩

/-- Witness for the amended C9: at `g9`, the undecodable chunk runs the
`finally`-block cleanup — entry for `A` deleted, session erased, socket 5
closed. -/
theorem decode_failure_paths_witness :
    gstep g9 (.recvRaw 1) =
      { g9 with server := closeSession (some "A") g9.server,
                sessions := aerase 1 g9.sessions,
                closed := g9.closed ++ [5] } := by
  have h := decode_failure_paths g9 1 okTrue none
  exact h.2.2 ⟨5, some "A"⟩ (by decide)

/-! ### C10 — heartbeat acts on the session's registered identity

The main behaviour holds: a heartbeat updates the entry keyed by the
session's own `client_id` (set by the most recent register frame on the
connection) and ignores the heartbeat's `sender` field.  The second half of
the claim fails in one corner: a register frame whose `sender` field is
absent registers the key `None`, and since an unregistered session's
`client_id` is also `None`, its heartbeat then refreshes that entry. -/

/-- The run: session 1 (socket 7) registers with a missing `sender` field
(creating the `None`-keyed entry), session 2 (socket 8) never registers,
time advances to 9, and session 2 sends a heartbeat. -/
def run10 : List Op :=
  [.accept 1 7, .recv 1 (.register none) okTrue, .accept 2 8, .tick 9,
   .recv 2 (.heartbeat (some "B")) okTrue]

/-- Counterexample for C10: before the heartbeat, session 2 is
unregistered (`client_id = None`) and the registry holds the `None` entry
with `last_seen = 0`; session 2's heartbeat — with no register ever
processed on that connection — changes the registry, refreshing
`last_seen` to 9. -/
theorem heartbeat_unregistered_cex :
    alookup 2 (runOps (run10.take 4)).sessions = some ⟨8, none⟩ ∧
    (runOps (run10.take 4)).server.clients = [(none, ⟨7, 0⟩)] ∧
    (runOps run10).server.clients = [(none, ⟨7, 9⟩)] := by
  decide

/-- C10 amended: a heartbeat refreshes `last_seen` of the registry entry
keyed by the session's current `client_id` (the value left by the most
recent register frame on that connection) and ignores the heartbeat's own
`sender` field entirely; a heartbeat on a connection with no prior register
leaves the registry unchanged provided no `None`-keyed entry exists (one
created by a register frame whose `sender` field was absent would be
refreshed). -/
theorem heartbeat_touches_session_cid (now : Nat) (sendOk : Nat → Msg → Bool)
    (sock : Nat) (cid : Option String) (st : ServerState) (s : Option String) :
    handleFrame now sendOk sock cid st (.heartbeat s) =
      (cid, { st with clients := atouch cid now st.clients }, []) ∧
    (∀ s2, handleFrame now sendOk sock cid st (.heartbeat s) =
      handleFrame now sendOk sock cid st (.heartbeat s2)) ∧
    (cid = none → alookup none st.clients = none →
      handleFrame now sendOk sock cid st (.heartbeat s) = (cid, st, [])) := by
  refine ⟨?_, fun s2 => rfl, ?_⟩
  · cases h : alookup cid st.clients with
    | some info => simp [handleFrame, h]
    | none => simp [handleFrame, h, atouch_of_absent cid now h]
  · intro h1 h2
    subst h1
    simp [handleFrame, h2]

/-- Witness for the amended C10: with an empty registry, an unregistered
session's heartbeat changes nothing. -/
theorem heartbeat_touches_session_cid_witness :
    handleFrame 9 okTrue 8 none (⟨[], []⟩ : ServerState) (.heartbeat (some "B")) =
      (none, ⟨[], []⟩, []) := by
  have h := heartbeat_touches_session_cid 9 okTrue 8 none ⟨[], []⟩ (some "B")
  exact h.2.2 rfl rfl

end P2P
